import Mathlib

/-!
Verification of the KanbanZone CLI client (`scripts/kanbanzone_api.py`).

The client's core logic operates on decoded JSON values: paginated card
fetching (`fetch_all_cards`), shape-agnostic field resolution
(`get_card_field`), client-side filtering (`filter_cards`), the cross-board
search guard (`cmd_search_cards`), and the WIP-limit evaluator
(`cmd_wip_check`).  We embed that logic shallowly: JSON values become the
inductive `JVal`, Python dicts become association lists of string keys
(JSON objects have unique keys, so first-match lookup is dict lookup),
Python truthiness becomes `jtruthy`, and the network transport becomes an
explicit function argument mapping a page number (or a board id and page
number) to the decoded response.  Loops whose exit depends on the server
(`while cards_data.get("hasMore")`) take an explicit fuel parameter; all
theorems about them supply enough fuel for the run they describe.
-/

set_option autoImplicit false

/-- A decoded JSON value, as produced by `json.loads`.  Floating-point
numbers do not occur in any field this client reads, so numbers are
modelled as integers. -/
inductive JVal where
  | null : JVal
  | bool : Bool → JVal
  | num : Int → JVal
  | str : String → JVal
  | obj : List (String × JVal) → JVal
  | arr : List JVal → JVal

/-- Python truthiness (`if x:`) for a JSON value: `None`, `False`, `0`,
`""`, `{}` and `[]` are falsy, everything else truthy. -/
def jtruthy : JVal → Bool
  | .null => false
  | .bool b => b
  | .num n => n != 0
  | .str s => s != ""
  | .obj m => !m.isEmpty
  | .arr l => !l.isEmpty

/-- Truthiness of a possibly-absent value: `dict.get` returns `None` for a
missing key, and `None` is falsy. -/
def jtruthyO : Option JVal → Bool
  | none => false
  | some v => jtruthy v

mutual
/-- Python `==` on JSON values.  Python compares `bool` and `int`
numerically (`True == 1`, `False == 0`); values of other distinct types
compare unequal.  Object comparison is modelled structurally: in Python,
dict equality ignores insertion order, but the client only ever compares
dict keys of the column-count dictionary, and dict-valued keys would be
unhashable there, so object (and list) comparands never arise. -/
def jvalBeq : JVal → JVal → Bool
  | .null, .null => true
  | .bool a, .bool b => a == b
  | .bool a, .num n => (if a then (1 : Int) else 0) == n
  | .num n, .bool b => n == (if b then (1 : Int) else 0)
  | .num a, .num b => a == b
  | .str a, .str b => a == b
  | .obj a, .obj b => jfieldsBeq a b
  | .arr a, .arr b => jlistBeq a b
  | _, _ => false

def jfieldsBeq : List (String × JVal) → List (String × JVal) → Bool
  | [], [] => true
  | (k1, v1) :: r1, (k2, v2) :: r2 => k1 == k2 && jvalBeq v1 v2 && jfieldsBeq r1 r2
  | _, _ => false

def jlistBeq : List JVal → List JVal → Bool
  | [], [] => true
  | a :: r1, b :: r2 => jvalBeq a b && jlistBeq r1 r2
  | _, _ => false
end

/-- First-match lookup in an association list; JSON objects have unique
keys, so this is exactly Python dict lookup. -/
def alookup : List (String × JVal) → String → Option JVal
  | [], _ => none
  | (k, v) :: rest, f => if k = f then some v else alookup rest f

/-- `d.get(key)` on a decoded JSON value: `some v` when the key is present
(even with value `null`), `none` when absent.  The client only ever calls
`.get` on values that are JSON objects (a non-mapping would raise
`AttributeError` in Python); on non-objects we return `none`. -/
def jget : JVal → String → Option JVal
  | .obj m, k => alookup m k
  | _, _ => none

/-- `get_card_field(card, field)` (kanbanzone_api.py:121-126): return the
top-level value when the key is present, otherwise look inside the nested
`CardItem` wrapper (`card.get("CardItem", {}).get(field)`), yielding `None`
(here `none`) when still absent. -/
def get_card_field (card : JVal) (field : String) : Option JVal :=
  match jget card field with
  | some v => some v
  | none =>
    match jget card "CardItem" with
    | some item => jget item field
    | none => none

mutual
/-- Python `repr` of a JSON value, as used by `str()` on non-string
values (f-string interpolation and the priority comparison).  String
escaping inside `repr` is approximated by plain quoting; the fields the
client formats this way are numeric in practice. -/
def pyRepr : JVal → String
  | .null => "None"
  | .bool true => "True"
  | .bool false => "False"
  | .num n => toString n
  | .str s => String.singleton (Char.ofNat 39) ++ s ++ String.singleton (Char.ofNat 39)
  | .obj m => "\x7b" ++ pyReprFields m ++ "\x7d"
  | .arr l => "[" ++ pyReprList l ++ "]"

def pyReprFields : List (String × JVal) → String
  | [] => ""
  | [(k, v)] => String.singleton (Char.ofNat 39) ++ k ++ String.singleton (Char.ofNat 39) ++ ": " ++ pyRepr v
  | (k, v) :: rest =>
    String.singleton (Char.ofNat 39) ++ k ++ String.singleton (Char.ofNat 39) ++ ": " ++ pyRepr v
      ++ ", " ++ pyReprFields rest

def pyReprList : List JVal → String
  | [] => ""
  | [v] => pyRepr v
  | v :: rest => pyRepr v ++ ", " ++ pyReprList rest
end

/-- Python `str()` of a JSON value: identity on strings, `repr` otherwise. -/
def pyStr : JVal → String
  | .str s => s
  | v => pyRepr v

/-- Python `str.lower()`.  `Char.toLower` lower-cases ASCII letters; the
fields the client compares are ASCII. -/
def py_lower (s : String) : String :=
  ⟨s.data.map Char.toLower⟩

/-- Whether `q` occurs at the start of `l` (helper for the substring test
of Python's `in` operator). -/
def leadsWith : List Char → List Char → Bool
  | [], _ => true
  | _ :: _, [] => false
  | a :: as, b :: bs => a == b && leadsWith as bs

/-- Python's `q in s` substring test, on the underlying character lists. -/
def occursIn (q : List Char) : List Char → Bool
  | [] => leadsWith q []
  | b :: bs => leadsWith q (b :: bs) || occursIn q bs

/-- Truthiness of an optional CLI string argument (`argparse` default is
`None`; the empty string is also falsy). -/
def optTruthy : Option String → Bool
  | none => false
  | some s => s != ""

/-- Python `(get_card_field(card, f) or "").lower()`: falsy values
(absent, `None`, `False`, `0`, `""`) coerce to the empty string; truthy
strings are lower-cased.  A truthy non-string would raise in Python and
never occurs in the string-valued fields this is applied to. -/
def lower_or_empty : Option JVal → String
  | some (.str s) => py_lower s
  | _ => ""

/-- Python `str(get_card_field(card, "priority") or "")`: falsy values
coerce to the empty string, anything else is stringified. -/
def py_str_or_empty : Option JVal → String
  | none => ""
  | some v => if jtruthy v then pyStr v else ""

/-- The conjunction of filter predicates a card must pass in
`filter_cards` (kanbanzone_api.py:129-151), one `if …: continue` guard per
predicate, in source order: label, owner, column title, priority, blocked,
free-text query. -/
def card_passes (label owner column priority : Option String) (blocked : Bool)
    (query : Option String) (card : JVal) : Bool :=
  if optTruthy label
      && (lower_or_empty (get_card_field card "label") != py_lower (label.getD "")) then false
  else if optTruthy owner
      && (lower_or_empty (get_card_field card "owner") != py_lower (owner.getD "")) then false
  else if optTruthy column
      && (lower_or_empty (get_card_field card "columnTitle") != py_lower (column.getD "")) then false
  else if optTruthy priority
      && (py_str_or_empty (get_card_field card "priority") != priority.getD "") then false
  else if blocked && !jtruthyO (get_card_field card "blocked") then false
  else if optTruthy query
      && (let q := py_lower (query.getD "")
          let title := lower_or_empty (get_card_field card "title")
          let desc := lower_or_empty (get_card_field card "description")
          !occursIn q.data title.data && !occursIn q.data desc.data) then false
  else true

/-- `filter_cards(cards, …)` (kanbanzone_api.py:129-151): keep, in order,
exactly the cards that pass every supplied predicate. -/
def filter_cards (cards : List JVal) (label owner column priority : Option String)
    (blocked : Bool) (query : Option String) : List JVal :=
  match cards with
  | [] => []
  | card :: rest =>
    if card_passes label owner column priority blocked query card then
      card :: filter_cards rest label owner column priority blocked query
    else
      filter_cards rest label owner column priority blocked query

/-- `cards_data.get("cards", [])`: the page's record list, `[]` when the
key is absent.  A present non-array value would make the subsequent
`list.extend` misbehave in Python; the server returns arrays, and no claim
exercises that shape, so it is read as `[]`. -/
def jgetCards (resp : JVal) : List JVal :=
  match jget resp "cards" with
  | some (.arr l) => l
  | _ => []

/-- The page-fetching loop of `fetch_all_cards` (kanbanzone_api.py:110-117):
while the previous response has a truthy `hasMore`, request the next page;
stop (returning the accumulator) on an error response, otherwise append
the page's cards and continue.  `T` maps a page number to the decoded
response; `fuel` bounds the iteration count (the Python loop is unbounded
if the server keeps answering `hasMore`), and the returned `Nat` counts
the requests issued. -/
def fetch_pages (T : Nat → JVal) : Nat → JVal → Nat → List JVal → List JVal × Nat
  | 0, _, _, acc => (acc, 0)
  | fuel + 1, prev, page, acc =>
    if jtruthyO (jget prev "hasMore") then
      let r := T page
      if jtruthyO (jget r "error") then (acc, 1)
      else
        let rec_result := fetch_pages T fuel r (page + 1) (acc ++ jgetCards r)
        (rec_result.1, rec_result.2 + 1)
    else (acc, 0)

/-- `fetch_all_cards(board, …)` (kanbanzone_api.py:101-118).  The first
request carries no `page` parameter, which the server treats as page 1, so
the transport is modelled as a function from page number to response and
the first call reads `T 1`.  An error on the first page is returned
directly (`Except.error`); afterwards the loop accumulates pages 2, 3, …
The second component counts the requests issued. -/
def fetch_all_cards (T : Nat → JVal) (fuel : Nat) : Except JVal (List JVal) × Nat :=
  let first := T 1
  if jtruthyO (jget first "error") then (.error first, 1)
  else
    let looped := fetch_pages T fuel first 2 (jgetCards first)
    (.ok looped.1, looped.2 + 1)

/-- A successful page response as the server sends it: a record array
under `cards` and a `hasMore` flag (no `error` key).  Used to model the
transport in the pagination claims. -/
def mkPage (cards : List JVal) (hasMore : Bool) : JVal :=
  .obj [("cards", .arr cards), ("hasMore", .bool hasMore)]

/-- One iteration of the card-counting loop of `cmd_wip_check`
(kanbanzone_api.py:368-372): resolve the card's `columnId` and, when it is
truthy, bump its counter (`col_counts[cid] = col_counts.get(cid, 0) + 1`).
The dictionary is modelled as its lookup function with default 0; keys
are compared with Python `==` (`jvalBeq`). -/
def count_step (m : JVal → Nat) (card : JVal) : JVal → Nat :=
  match get_card_field card "columnId" with
  | some cid =>
    if jtruthy cid then fun k => if jvalBeq k cid then m cid + 1 else m k
    else m
  | none => m

/-- The per-column card counts of `cmd_wip_check` (kanbanzone_api.py:368-372),
as the lookup function of the `col_counts` dictionary. -/
def colCounts (cards : List JVal) : JVal → Nat :=
  cards.foldl count_step (fun _ => 0)

/-- `col_wrapper.get("ColumnItem", col_wrapper)` (kanbanzone_api.py:383):
unwrap the nested column shape when the wrapper key is present, else use
the record itself. -/
def unwrapColumn (cw : JVal) : JVal :=
  match jget cw "ColumnItem" with
  | some v => v
  | none => cw

/-- `col.get("type") != "CARD"`, negated (kanbanzone_api.py:384): only a
string value equal to `"CARD"` passes (Python `==` between `"CARD"` and a
non-string is `False`). -/
def isCardType (col : JVal) : Bool :=
  match jget col "type" with
  | some (.str s) => s == "CARD"
  | _ => false

/-- `col.get("columnId", col.get("boardTitle"))` (kanbanzone_api.py:386):
the column's identifier, falling back to the title-like `boardTitle` field
only when the `columnId` key is entirely absent (a present `null` is
returned as-is, since `dict.get` only applies its default for a missing
key). -/
def colIdOf (col : JVal) : Option JVal :=
  match jget col "columnId" with
  | some v => some v
  | none => jget col "boardTitle"

/-- One entry of the WIP report (the dict built at
kanbanzone_api.py:395-403).  `minWIP`/`maxWIP` and the identifier fields
keep their raw JSON values (`none` prints as `null`). -/
structure ReportEntry where
  columnId : Option JVal
  columnTitle : Option JVal
  columnState : Option JVal
  currentCards : Nat
  minWIP : Option JVal
  maxWIP : Option JVal
  violations : List String

/-- `current > max_wip` for the non-negative running count against a JSON
threshold value, after the truthiness guard (kanbanzone_api.py:391).
Python compares `int` with `int` or `bool` (`True` is 1); a truthy value
of any other type would raise `TypeError` and never occurs. -/
def countGt (current : Nat) : JVal → Bool
  | .num n => (current : Int) > n
  | .bool b => (current : Int) > (if b then 1 else 0)
  | _ => false

/-- `current < min_wip`, the under-minimum comparison
(kanbanzone_api.py:393), with the same conventions as `countGt`. -/
def countLt (current : Nat) : JVal → Bool
  | .num n => (current : Int) < n
  | .bool b => (current : Int) < (if b then 1 else 0)
  | _ => false

/-- `current = col_counts.get(col_id, 0)` (kanbanzone_api.py:387): the
column's current card count — 0 when the identifier is `None` (never a
counter key, since only truthy identifiers are counted) or was never
incremented. -/
def currentOf (cards : List JVal) (col : JVal) : Nat :=
  match colIdOf col with
  | some k => colCounts cards k
  | none => 0

/-- The violation list `cmd_wip_check` builds for one (already unwrapped)
column (kanbanzone_api.py:390-394): the over-max string followed by the
under-min string, each emitted only when the threshold is truthy and the
comparison holds, with the threshold rendered by `str()`. -/
def violationsOf (cards : List JVal) (col : JVal) : List String :=
  (if jtruthyO (jget col "maxWIP")
      && countGt (currentOf cards col) ((jget col "maxWIP").getD .null) then
     ["over max (" ++ toString (currentOf cards col) ++ "/"
       ++ pyStr ((jget col "maxWIP").getD .null) ++ ")"]
   else [])
  ++ (if jtruthyO (jget col "minWIP")
      && countLt (currentOf cards col) ((jget col "minWIP").getD .null) then
     ["under min (" ++ toString (currentOf cards col) ++ "/"
       ++ pyStr ((jget col "minWIP").getD .null) ++ ")"]
   else [])

/-- The report entry `cmd_wip_check` builds for one (already unwrapped)
column (kanbanzone_api.py:386-403): resolved identifier, title and state,
current count, raw thresholds, and the violation list. -/
def reportEntry (cards : List JVal) (col : JVal) : ReportEntry :=
  ⟨colIdOf col, jget col "title", jget col "columnState", currentOf cards col,
   jget col "minWIP", jget col "maxWIP", violationsOf cards col⟩

/-- The report loop of `cmd_wip_check` (kanbanzone_api.py:381-403): iterate
the columns in server order, skip non-`"CARD"` columns, and append one
report entry per remaining column. -/
def wip_report (columns cards : List JVal) : List ReportEntry :=
  match columns with
  | [] => []
  | cw :: rest =>
    let col := unwrapColumn cw
    if isCardType col then reportEntry cards col :: wip_report rest cards
    else wip_report rest cards

/-- The argument namespace of the `search-cards` subcommand: `argparse`
defaults every optional string to `None` and the `store_true` flags to
`False`. -/
structure SearchArgs where
  query : Option String
  label : Option String
  owner : Option String
  priority : Option String
  blocked : Bool
  include_archived : Bool

/-- The fail-fast condition of `cmd_search_cards` (kanbanzone_api.py:324):
`not args.query and not (args.label or args.owner or args.priority or
args.blocked)`. -/
def search_guard (a : SearchArgs) : Bool :=
  !optTruthy a.query
    && !(optTruthy a.label || optTruthy a.owner || optTruthy a.priority || a.blocked)

/-- The JSON document `error_exit` prints for the missing-filter usage
error (kanbanzone_api.py:325, via kanbanzone_api.py:43-46). -/
def usage_error_doc : JVal :=
  .obj [("error", .bool true),
        ("message", .str "Provide --query and/or filter flags (--label, --owner, --priority, --blocked).")]

/-- One iteration of the per-board loop of `cmd_search_cards`
(kanbanzone_api.py:333-346): unwrap the `BoardItem` shape, skip archived
boards, fetch the board's cards (counting the requests issued), skip the
board silently on a fetch error, and otherwise append the filtered cards.
`T` maps a board's `publicId` value (absent boards pass `none`) and a page
number to the response.  The accumulator carries the collected cards and
the running request count. -/
def search_board_step (a : SearchArgs) (T : Option JVal → Nat → JVal) (fuel : Nat)
    (acc : List JVal × Nat) (board_item : JVal) : List JVal × Nat :=
  let bi := match jget board_item "BoardItem" with
    | some v => v
    | none => board_item
  let board_id := jget bi "publicId"
  if jtruthyO (jget bi "isArchived") then acc
  else
    match fetch_all_cards (T board_id) fuel with
    | (.error _, c) => (acc.1, acc.2 + c)
    | (.ok cards, c) =>
      (acc.1 ++ filter_cards cards a.label a.owner none a.priority a.blocked a.query,
       acc.2 + c)

/-- `boards_data.get("boards", [])` (kanbanzone_api.py:333). -/
def jgetBoards (resp : JVal) : List JVal :=
  match jget resp "boards" with
  | some (.arr l) => l
  | _ => []

/-- `cmd_search_cards` (kanbanzone_api.py:323-351): fail fast with a usage
error when neither a query nor any filter flag is supplied (before any
request); otherwise issue the board-listing call (`boardsResp` models its
response), return its error document directly on failure, and otherwise
run the per-board fetch-and-filter loop, emitting the count/cards
document.  The second component is the number of network requests
issued. -/
def cmd_search_cards (a : SearchArgs) (boardsResp : JVal)
    (T : Option JVal → Nat → JVal) (fuel : Nat) : JVal × Nat :=
  if search_guard a then (usage_error_doc, 0)
  else if jtruthyO (jget boardsResp "error") then (boardsResp, 1)
  else
    let looped := (jgetBoards boardsResp).foldl (search_board_step a T fuel) ([], 1)
    (.obj [("count", .num looped.1.length), ("cards", .arr looped.1)], looped.2)

/-! ### Helper lemmas -/

theorem filter_cards_eq_filter (cards : List JVal) (l o c p : Option String) (b : Bool)
    (q : Option String) :
    filter_cards cards l o c p b q = cards.filter (card_passes l o c p b q) := by
  induction cards with
  | nil => rfl
  | cons card rest ih =>
    simp only [filter_cards, List.filter_cons, ih]

theorem py_lower_eq_empty_iff (s : String) : py_lower s = "" ↔ s = "" := by
  cases s with
  | mk data =>
    cases data with
    | nil => exact ⟨fun _ => rfl, fun _ => rfl⟩
    | cons c cs =>
      constructor
      · intro h
        exact absurd (congrArg String.data h) (by simp [py_lower])
      · intro h
        exact absurd (congrArg String.data h) (by simp)

/-- Shape of the values the string-equality predicates read: absent, a
string, or a falsy value (which Python's `or ""` coerces to the empty
string).  A truthy non-string would raise `AttributeError` in Python and
never occurs in these fields. -/
def strShaped : Option JVal → Bool
  | none => true
  | some (.str _) => true
  | some v => !jtruthy v

theorem card_passes_label_only (card : JVal) (s : String) (hs : s ≠ "") :
    card_passes (some s) none none none false none card
      = (lower_or_empty (get_card_field card "label") == py_lower s) := by
  unfold card_passes
  simp [optTruthy, hs, jtruthyO, bne]
  by_cases h : lower_or_empty (get_card_field card "label") = py_lower s <;> simp [h]

theorem card_passes_owner_only (card : JVal) (s : String) (hs : s ≠ "") :
    card_passes none (some s) none none false none card
      = (lower_or_empty (get_card_field card "owner") == py_lower s) := by
  unfold card_passes
  simp [optTruthy, hs, jtruthyO, bne]
  by_cases h : lower_or_empty (get_card_field card "owner") = py_lower s <;> simp [h]

theorem card_passes_column_only (card : JVal) (s : String) (hs : s ≠ "") :
    card_passes none none (some s) none false none card
      = (lower_or_empty (get_card_field card "columnTitle") == py_lower s) := by
  unfold card_passes
  simp [optTruthy, hs, jtruthyO, bne]
  by_cases h : lower_or_empty (get_card_field card "columnTitle") = py_lower s <;> simp [h]

theorem card_passes_no_filter (card : JVal) :
    card_passes none none none none false none card = true := by
  unfold card_passes
  simp [optTruthy]

/-! ### Claims -/

/-- Claim C4: field normalization is shape-agnostic.  Resolving a field
on a flat record and on a record nesting the same binding under the
`CardItem` wrapper returns the same value, and a field absent both at top
level and inside the wrapper resolves to the absent marker `none` rather
than an error. -/
theorem get_card_field_shape_agnostic (f : String) (v : JVal) :
    get_card_field (.obj [(f, v)]) f = some v
  ∧ (f ≠ "CardItem" → get_card_field (.obj [("CardItem", .obj [(f, v)])]) f = some v)
  ∧ (∀ card, jget card f = none →
      (∀ item, jget card "CardItem" = some item → jget item f = none) →
      get_card_field card f = none) := by
  refine ⟨?_, ?_, ?_⟩
  · simp [get_card_field, jget, alookup]
  · intro hf
    simp [get_card_field, jget, alookup, if_neg (Ne.symm hf)]
  · intro card h1 h2
    unfold get_card_field
    rw [h1]
    cases hw : jget card "CardItem" with
    | none => rfl
    | some item => exact h2 item hw

theorem get_card_field_shape_agnostic_witness :
    get_card_field (.obj [("title", .str "A")]) "title" = some (.str "A")
  ∧ get_card_field (.obj [("CardItem", .obj [("title", .str "A")])]) "title" = some (.str "A")
  ∧ get_card_field (.obj [("CardItem", .obj [])]) "title" = none :=
  ⟨(get_card_field_shape_agnostic "title" (.str "A")).1,
   (get_card_field_shape_agnostic "title" (.str "A")).2.1 (by decide),
   (get_card_field_shape_agnostic "title" (.str "A")).2.2 (.obj [("CardItem", .obj [])]) rfl
     (fun item h => by
        have : item = JVal.obj [] := by
          simpa [jget, alookup] using h.symm
        simp [this, jget, alookup])⟩

/-- Claim C10: a top-level key shadows the nested `CardItem` wrapper.
When the field is present at top level, `get_card_field` returns the
top-level value — even when that value is `null` — and the wrapper's
contents are irrelevant: prepending any `CardItem` binding leaves the
result unchanged. -/
theorem get_card_field_top_level_shadows (m : List (String × JVal)) (f : String) (v : JVal)
    (h : alookup m f = some v) :
    get_card_field (.obj m) f = some v
  ∧ (f ≠ "CardItem" → ∀ w, get_card_field (.obj (("CardItem", w) :: m)) f = some v) := by
  constructor
  · simp [get_card_field, jget, h]
  · intro hf w
    simp only [get_card_field, jget, alookup]
    rw [if_neg (Ne.symm hf), h]

theorem get_card_field_top_level_shadows_witness :
    get_card_field (.obj [("owner", .null)]) "owner" = some .null
  ∧ get_card_field (.obj [("CardItem", .obj [("owner", .str "alice")]), ("owner", .null)])
      "owner" = some .null :=
  ⟨(get_card_field_top_level_shadows [("owner", .null)] "owner" .null rfl).1,
   (get_card_field_top_level_shadows [("owner", .null)] "owner" .null rfl).2 (by decide)
     (.obj [("owner", .str "alice")])⟩

/-- Claim C6: the label/owner/column string-equality predicates are
case-insensitive with absent-as-empty.  For a non-empty filter value `s`,
a card is kept exactly when the lower-cased resolved field value (empty
string when absent or falsy) equals the lower-cased `s`; an absent field
never matches a non-empty filter value, and a filter set to the empty
string keeps every card, in particular one whose field is absent. -/
theorem filter_equality_case_insensitive (card : JVal) (s : String) (hs : s ≠ "") :
    (strShaped (get_card_field card "label") = true →
      (filter_cards [card] (some s) none none none false none = [card]
        ↔ lower_or_empty (get_card_field card "label") = py_lower s))
  ∧ (strShaped (get_card_field card "owner") = true →
      (filter_cards [card] none (some s) none none false none = [card]
        ↔ lower_or_empty (get_card_field card "owner") = py_lower s))
  ∧ (strShaped (get_card_field card "columnTitle") = true →
      (filter_cards [card] none none (some s) none false none = [card]
        ↔ lower_or_empty (get_card_field card "columnTitle") = py_lower s))
  ∧ (get_card_field card "label" = none →
      filter_cards [card] (some s) none none none false none = [])
  ∧ filter_cards [card] (some "") none none none false none = [card] := by
  have hlab := card_passes_label_only card s hs
  have hown := card_passes_owner_only card s hs
  have hcol := card_passes_column_only card s hs
  refine ⟨?_, ?_, ?_, ?_, ?_⟩
  · intro _
    simp only [filter_cards, hlab]
    by_cases h : lower_or_empty (get_card_field card "label") = py_lower s <;> simp [h]
  · intro _
    simp only [filter_cards, hown]
    by_cases h : lower_or_empty (get_card_field card "owner") = py_lower s <;> simp [h]
  · intro _
    simp only [filter_cards, hcol]
    by_cases h : lower_or_empty (get_card_field card "columnTitle") = py_lower s <;> simp [h]
  · intro habs
    simp only [filter_cards, hlab, habs, lower_or_empty]
    have : py_lower s ≠ "" := fun h => hs ((py_lower_eq_empty_iff s).mp h)
    simp [Ne.symm this]
  · simp only [filter_cards]
    have : card_passes (some "") none none none false none card = true := by
      unfold card_passes
      simp [optTruthy]
    simp [this]

theorem filter_equality_case_insensitive_witness :
    filter_cards [.obj [("label", .str "URGENT")]] (some "Urgent") none none none false none
      = [.obj [("label", .str "URGENT")]]
  ∧ filter_cards [.obj [("label", .str "urgent")]] (some "Urgent") none none none false none
      = [.obj [("label", .str "urgent")]] :=
  ⟨((filter_equality_case_insensitive (.obj [("label", .str "URGENT")]) "Urgent"
      (by decide)).1 (by decide)).mpr (by decide),
   ((filter_equality_case_insensitive (.obj [("label", .str "urgent")]) "Urgent"
      (by decide)).1 (by decide)).mpr (by decide)⟩

/-- Claim C8: filtering is idempotent and order-preserving.  Applying the
same filter twice yields the same result as applying it once, and the
result is a sublist (order-preserving subsequence) of the input. -/
theorem filter_cards_idempotent_sublist (cards : List JVal) (l o c p : Option String)
    (b : Bool) (q : Option String) :
    filter_cards (filter_cards cards l o c p b q) l o c p b q
        = filter_cards cards l o c p b q
  ∧ List.Sublist (filter_cards cards l o c p b q) cards := by
  constructor
  · rw [filter_cards_eq_filter, filter_cards_eq_filter, List.filter_filter]
    simp
  · rw [filter_cards_eq_filter]
    exact List.filter_sublist cards

/-- Claim C9: only `"CARD"`-typed columns produce report entries, in
server order.  The WIP report equals the entry map over the card-typed
columns (after unwrapping), kept in the order the server returned them;
deleting a non-`"CARD"` column from the list — whatever its thresholds —
leaves the report unchanged. -/
theorem wip_report_card_columns_only (cards : List JVal) :
    (∀ columns, wip_report columns cards
        = ((columns.map unwrapColumn).filter isCardType).map (reportEntry cards))
  ∧ (∀ pre post cw, isCardType (unwrapColumn cw) = false →
      wip_report (pre ++ cw :: post) cards = wip_report (pre ++ post) cards) := by
  have key : ∀ columns, wip_report columns cards
      = ((columns.map unwrapColumn).filter isCardType).map (reportEntry cards) := by
    intro columns
    induction columns with
    | nil => rfl
    | cons cw rest ih =>
      simp only [wip_report, List.map_cons, List.filter_cons]
      by_cases h : isCardType (unwrapColumn cw) <;> simp [h, ih]
  refine ⟨key, ?_⟩
  intro pre post cw h
  rw [key, key]
  simp [List.filter_cons, h]

theorem wip_report_card_columns_only_witness :
    wip_report [.obj [("type", .str "ARCHIVE"), ("minWIP", .num 1), ("maxWIP", .num 1)]] []
      = wip_report [] [] :=
  (wip_report_card_columns_only []).2 [] []
    (.obj [("type", .str "ARCHIVE"), ("minWIP", .num 1), ("maxWIP", .num 1)]) (by decide)

/-- Claim C3 counterexample: the claim reads "contains `over max (c/max)`
iff a max threshold is set and c exceeds it", but a column whose `maxWIP`
is set to `0` is treated as having no limit (Python truthiness), so with
one card (count 1 > 0) the code emits no violation where the claim
requires `"over max (1/0)"`. -/
theorem wip_violation_zero_max_counterexample :
    ((wip_report [.obj [("type", .str "CARD"), ("columnId", .str "c1"), ("maxWIP", .num 0)]]
        [.obj [("columnId", .str "c1")]]).map (fun e => e.violations) = [[]])
  ∧ ((wip_report [.obj [("type", .str "CARD"), ("columnId", .str "c1"), ("maxWIP", .num 0)]]
        [.obj [("columnId", .str "c1")]]).map (fun e => e.currentCards) = [1]) := by
  constructor <;> decide

/-- Threshold shape: `minWIP`/`maxWIP` are absent, `null`, or an integer.
(A truthy non-numeric threshold would make Python's `>` raise.) -/
def numOrAbsent : Option JVal → Bool
  | none => true
  | some .null => true
  | some (.num _) => true
  | _ => false

theorem pyStr_num (k : Int) : pyStr (.num k) = toString k := rfl

/-- The over-max half of claim C3's violation rule, as amended: emit
`"over max (c/m)"` exactly when a max threshold is set to a nonzero
integer that the current count exceeds.  (Spec-side formula, to be
compared with the code's `violationsOf`.) -/
def overSpec (c : Nat) (mv : Option JVal) : List String :=
  match mv with
  | some (.num m) =>
    if m ≠ 0 ∧ (c : Int) > m then
      ["over max (" ++ toString c ++ "/" ++ toString m ++ ")"]
    else []
  | _ => []

/-- The under-min half of claim C3's violation rule, as the claim states
it: emit `"under min (c/m)"` exactly when a min threshold is set to an
integer the current count is below.  (Spec-side formula, to be compared
with the code's `violationsOf`.) -/
def underSpec (c : Nat) (mv : Option JVal) : List String :=
  match mv with
  | some (.num m) =>
    if (c : Int) < m then
      ["under min (" ++ toString c ++ "/" ++ toString m ++ ")"]
    else []
  | _ => []

theorem over_part_eq (c : Nat) (mv : Option JVal) (h : numOrAbsent mv = true) :
    (if jtruthyO mv && countGt c (mv.getD .null) then
       ["over max (" ++ toString c ++ "/" ++ pyStr (mv.getD .null) ++ ")"]
     else [])
    = overSpec c mv := by
  match mv, h with
  | none, _ => simp [jtruthyO, overSpec]
  | some .null, _ => simp [jtruthyO, jtruthy, overSpec]
  | some (.num m), _ =>
    simp only [Option.getD_some, jtruthyO, pyStr_num, overSpec]
    by_cases h1 : m = 0
    · subst h1; simp [jtruthy]
    · by_cases h2 : (c : Int) > m <;> simp [jtruthy, countGt, h1, h2]

theorem under_part_eq (c : Nat) (mv : Option JVal) (h : numOrAbsent mv = true) :
    (if jtruthyO mv && countLt c (mv.getD .null) then
       ["under min (" ++ toString c ++ "/" ++ pyStr (mv.getD .null) ++ ")"]
     else [])
    = underSpec c mv := by
  match mv, h with
  | none, _ => simp [jtruthyO, underSpec]
  | some .null, _ => simp [jtruthyO, jtruthy, underSpec]
  | some (.num m), _ =>
    simp only [Option.getD_some, jtruthyO, pyStr_num, underSpec]
    by_cases h1 : m = 0
    · subst h1
      have hc : ¬((c : Int) < 0) := by omega
      simp [jtruthy, hc]
    · by_cases h2 : (c : Int) < m <;> simp [jtruthy, countLt, h1, h2]

theorem violationsOf_eq (cards : List JVal) (col : JVal)
    (hmax : numOrAbsent (jget col "maxWIP") = true)
    (hmin : numOrAbsent (jget col "minWIP") = true) :
    violationsOf cards col
      = overSpec (currentOf cards col) (jget col "maxWIP")
        ++ underSpec (currentOf cards col) (jget col "minWIP") := by
  unfold violationsOf
  rw [over_part_eq (currentOf cards col) (jget col "maxWIP") hmax,
      under_part_eq (currentOf cards col) (jget col "minWIP") hmin]

/-- Claim C3 (amended): WIP violation detection for a `"CARD"`-typed
column.  The violations list of the column's report entry contains
`"over max (c/max)"` iff a max threshold is set to a nonzero value and the
current count `c` exceeds it, followed by `"under min (c/min)"` iff a min
threshold is set and `c` is below it, and is empty otherwise.  (The
original claim, without "nonzero", fails on a max threshold set to 0 — see
the counterexample; a min threshold of 0 can never fire since counts are
non-negative, so the min side needs no such change.) -/
theorem wip_violation_detection_amended (cards : List JVal) (cw : JVal)
    (htype : jget (unwrapColumn cw) "type" = some (.str "CARD"))
    (hmax : numOrAbsent (jget (unwrapColumn cw) "maxWIP") = true)
    (hmin : numOrAbsent (jget (unwrapColumn cw) "minWIP") = true) :
    (wip_report [cw] cards).map (fun e => e.violations)
      = [overSpec ((reportEntry cards (unwrapColumn cw)).currentCards)
            (jget (unwrapColumn cw) "maxWIP")
          ++ underSpec ((reportEntry cards (unwrapColumn cw)).currentCards)
            (jget (unwrapColumn cw) "minWIP")] := by
  have hcard : isCardType (unwrapColumn cw) = true := by
    simp [isCardType, htype]
  have hviol : (reportEntry cards (unwrapColumn cw)).violations
      = violationsOf cards (unwrapColumn cw) := rfl
  have hcur : (reportEntry cards (unwrapColumn cw)).currentCards
      = currentOf cards (unwrapColumn cw) := rfl
  simp only [wip_report, hcard, if_true, List.map_cons, List.map_nil, hviol, hcur]
  rw [violationsOf_eq cards (unwrapColumn cw) hmax hmin]

theorem wip_violation_detection_amended_witness :
    (wip_report [.obj [("type", .str "CARD"), ("columnId", .str "c1"),
        ("minWIP", .num 2), ("maxWIP", .num 5)]]
      (List.replicate 7 (.obj [("columnId", .str "c1")]))).map (fun e => e.violations)
      = [["over max (7/5)"]] := by
  have h := wip_violation_detection_amended
    (List.replicate 7 (.obj [("columnId", .str "c1")]))
    (.obj [("type", .str "CARD"), ("columnId", .str "c1"),
        ("minWIP", .num 2), ("maxWIP", .num 5)])
    rfl rfl rfl
  rw [h]
  decide

/-- Claim C7 counterexample: the claim reads "each column's currentCards
count equals the number of records whose resolved column identifier
equals that column's identifier", but a card whose `columnId` resolves to
the empty string is skipped by the truthiness test `if cid:` — so for a
column whose identifier is `""` the report shows 0 current cards while
exactly one record's resolved identifier equals the column's. -/
theorem wip_count_empty_id_counterexample :
    ((wip_report [.obj [("type", .str "CARD"), ("columnId", .str "")]]
        [.obj [("columnId", .str "")]]).map (fun e => e.currentCards) = [0])
  ∧ (([(.obj [("columnId", .str "")] : JVal)].filter (fun c =>
        match get_card_field c "columnId" with
        | some v => jvalBeq v (.str "")
        | none => false)).length = 1) := by
  constructor <;> decide

theorem count_step_skip (m : JVal → Nat) (c : JVal)
    (h : jtruthyO (get_card_field c "columnId") = false) :
    count_step m c = m := by
  unfold count_step
  cases hc : get_card_field c "columnId" with
  | none => rfl
  | some v =>
    rw [hc] at h
    simp only [jtruthyO] at h
    simp [h]

theorem count_step_bump (m : JVal → Nat) (c : JVal) (u : String)
    (hc : get_card_field c "columnId" = some (.str u)) (hu : u ≠ "") :
    count_step m c = fun k => if jvalBeq k (.str u) then m (.str u) + 1 else m k := by
  unfold count_step
  rw [hc]
  simp [jtruthy, hu]

theorem foldl_count_str (t : String) :
    ∀ (cards : List JVal) (m : JVal → Nat),
      cards.all (fun c => strShaped (get_card_field c "columnId")) = true →
      (cards.foldl count_step m) (.str t)
        = m (.str t) + (cards.filter (fun c =>
            match get_card_field c "columnId" with
            | some v => jtruthy v && jvalBeq v (.str t)
            | none => false)).length := by
  intro cards
  induction cards with
  | nil =>
    intro m _
    simp
  | cons c rest ih =>
    intro m hall
    rw [List.all_cons, Bool.and_eq_true] at hall
    obtain ⟨hc, hrest⟩ := hall
    rw [List.foldl_cons, List.filter_cons]
    have hshape : (∃ u, get_card_field c "columnId" = some (.str u))
        ∨ jtruthyO (get_card_field c "columnId") = false := by
      cases hv : get_card_field c "columnId" with
      | none => exact Or.inr rfl
      | some v =>
        rw [hv] at hc
        cases v with
        | str u => exact Or.inl ⟨u, rfl⟩
        | null => exact Or.inr rfl
        | bool b =>
          have hc2 : (!jtruthy (JVal.bool b)) = true := hc
          exact Or.inr (by simpa [jtruthyO] using hc2)
        | num n =>
          have hc2 : (!jtruthy (JVal.num n)) = true := hc
          exact Or.inr (by simpa [jtruthyO] using hc2)
        | obj o =>
          have hc2 : (!jtruthy (JVal.obj o)) = true := hc
          exact Or.inr (by simpa [jtruthyO] using hc2)
        | arr l =>
          have hc2 : (!jtruthy (JVal.arr l)) = true := hc
          exact Or.inr (by simpa [jtruthyO] using hc2)
    rcases hshape with ⟨u, hcu⟩ | hfalse
    · by_cases hu : u = ""
      · subst hu
        rw [count_step_skip m c (by simp [jtruthyO, hcu, jtruthy]), ih m hrest]
        simp [hcu, jtruthy]
      · rw [count_step_bump m c u hcu hu, ih _ hrest]
        by_cases htu : t = u
        · subst htu
          have hb : jvalBeq (.str t) (.str t) = true := by simp [jvalBeq]
          have hpred : (match get_card_field c "columnId" with
              | some v => jtruthy v && jvalBeq v (.str t)
              | none => false) = true := by
            simp [hcu, jtruthy, hu, jvalBeq]
          simp only [hb, if_true, hpred, List.length_cons]
          omega
        · have hb : jvalBeq (.str t) (.str u) = false := by
            simp [jvalBeq, htu]
          have hba : jvalBeq (.str u) (.str t) = false := by
            have hut : (u == t) = false := beq_eq_false_iff_ne.mpr (fun h => htu h.symm)
            simpa [jvalBeq] using hut
          have hpred : (match get_card_field c "columnId" with
              | some v => jtruthy v && jvalBeq v (.str t)
              | none => false) = false := by
            simp [hcu, hba]
          simp [hb, hpred]
    · rw [count_step_skip m c hfalse, ih m hrest]
      cases hcv : get_card_field c "columnId" with
      | none => simp [hcv]
      | some v =>
        rw [hcv] at hfalse
        simp only [jtruthyO] at hfalse
        simp [hcv, hfalse]

theorem colCounts_str (cards : List JVal) (t : String)
    (hall : cards.all (fun c => strShaped (get_card_field c "columnId")) = true) :
    colCounts cards (.str t)
      = (cards.filter (fun c =>
          match get_card_field c "columnId" with
          | some v => jtruthy v && jvalBeq v (.str t)
          | none => false)).length := by
  have h := foldl_count_str t cards (fun _ => 0) hall
  simpa [colCounts] using h

/-- Claim C7 (amended): per-column counting excludes unassigned cards.
For a `"CARD"` column whose identifier is the string `t` and a card set
whose resolved `columnId` values are strings or falsy (the shapes Python
can process here), the report's `currentCards` equals the number of
records whose resolved column identifier is truthy and equals `t`; a
record whose identifier does not resolve to a truthy value contributes to
no column's count; and such records still remain in filtered result sets
(an empty filter keeps every card). -/
theorem wip_count_excludes_unassigned_amended (cards : List JVal) (cw : JVal) (t : String)
    (htype : jget (unwrapColumn cw) "type" = some (.str "CARD"))
    (hid : jget (unwrapColumn cw) "columnId" = some (.str t))
    (hall : cards.all (fun c => strShaped (get_card_field c "columnId")) = true) :
    ((wip_report [cw] cards).map (fun e => e.currentCards)
      = [(cards.filter (fun c =>
          match get_card_field c "columnId" with
          | some v => jtruthy v && jvalBeq v (.str t)
          | none => false)).length])
  ∧ (∀ (c : JVal) (rest : List JVal), jtruthyO (get_card_field c "columnId") = false →
      ∀ k, colCounts (c :: rest) k = colCounts rest k)
  ∧ filter_cards cards none none none none false none = cards := by
  refine ⟨?_, ?_, ?_⟩
  · have hcard : isCardType (unwrapColumn cw) = true := by
      simp [isCardType, htype]
    have hcur : (reportEntry cards (unwrapColumn cw)).currentCards
        = currentOf cards (unwrapColumn cw) := rfl
    simp only [wip_report, hcard, if_true, List.map_cons, List.map_nil, hcur]
    have hcc : currentOf cards (unwrapColumn cw) = colCounts cards (.str t) := by
      unfold currentOf colIdOf
      rw [hid]
    rw [hcc, colCounts_str cards t hall]
  · intro c rest hfalse k
    show (List.foldl count_step (fun _ => 0) (c :: rest)) k = _
    rw [List.foldl_cons, count_step_skip _ c hfalse]
    rfl
  · rw [filter_cards_eq_filter]
    refine List.filter_eq_self.mpr ?_
    intro a _
    exact card_passes_no_filter a

theorem wip_count_excludes_unassigned_amended_witness :
    (wip_report [.obj [("type", .str "CARD"), ("columnId", .str "c1")]]
      [.obj [("columnId", .str "c1")], .obj [("title", .str "x")]]).map
        (fun e => e.currentCards) = [1] := by
  have h := (wip_count_excludes_unassigned_amended
    [.obj [("columnId", .str "c1")], .obj [("title", .str "x")]]
    (.obj [("type", .str "CARD"), ("columnId", .str "c1")]) "c1"
    rfl rfl (by decide)).1
  rw [h]
  decide

theorem jget_mkPage_hasMore (cs : List JVal) (b : Bool) :
    jget (mkPage cs b) "hasMore" = some (.bool b) := rfl

theorem jget_mkPage_error (cs : List JVal) (b : Bool) :
    jget (mkPage cs b) "error" = none := rfl

theorem jgetCards_mkPage (cs : List JVal) (b : Bool) :
    jgetCards (mkPage cs b) = cs := rfl

theorem fetch_pages_stop (T : Nat → JVal) (fuel : Nat) (prev : JVal) (page : Nat)
    (acc : List JVal) (h : jtruthyO (jget prev "hasMore") = false) :
    fetch_pages T (fuel + 1) prev page acc = (acc, 0) := by
  simp [fetch_pages, h]

theorem fetch_pages_fail (T : Nat → JVal) (fuel : Nat) (prev : JVal) (page : Nat)
    (acc : List JVal) (h : jtruthyO (jget prev "hasMore") = true)
    (he : jtruthyO (jget (T page) "error") = true) :
    fetch_pages T (fuel + 1) prev page acc = (acc, 1) := by
  simp [fetch_pages, h, he]

theorem fetch_pages_go (T : Nat → JVal) (fuel : Nat) (prev : JVal) (page : Nat)
    (acc : List JVal) (h : jtruthyO (jget prev "hasMore") = true)
    (he : jtruthyO (jget (T page) "error") = false) :
    fetch_pages T (fuel + 1) prev page acc
      = ((fetch_pages T fuel (T page) (page + 1) (acc ++ jgetCards (T page))).1,
         (fetch_pages T fuel (T page) (page + 1) (acc ++ jgetCards (T page))).2 + 1) := by
  simp [fetch_pages, h, he]

theorem fetch_pages_complete (T : Nat → JVal) (rs : Nat → List JVal) (n : Nat)
    (HT : ∀ p, 1 ≤ p → p ≤ n → T p = mkPage (rs p) (decide (p < n))) :
    ∀ (fuel page : Nat) (acc : List JVal), 2 ≤ page → page ≤ n + 1 →
      n + 1 - page ≤ fuel →
      (fetch_pages T fuel (T (page - 1)) page acc).1
        = acc ++ (((List.range' page (n + 1 - page)).map rs).flatten) := by
  intro fuel
  induction fuel with
  | zero =>
    intro page acc h2 hn hf
    have hz : n + 1 - page = 0 := Nat.le_zero.mp hf
    simp [fetch_pages, hz]
  | succ fuel ih =>
    intro page acc h2 hn hf
    have hprev : T (page - 1) = mkPage (rs (page - 1)) (decide (page - 1 < n)) :=
      HT (page - 1) (by omega) (by omega)
    by_cases hlt : page - 1 < n
    · have hpage : page ≤ n := by omega
      have hmore : jtruthyO (jget (T (page - 1)) "hasMore") = true := by
        rw [hprev, jget_mkPage_hasMore]
        simp [jtruthyO, jtruthy, hlt]
      have hcur : T page = mkPage (rs page) (decide (page < n)) :=
        HT page (by omega) hpage
      have herr : jtruthyO (jget (T page) "error") = false := by
        rw [hcur, jget_mkPage_error]
        rfl
      rw [fetch_pages_go T fuel _ page acc hmore herr]
      have hrec := ih (page + 1) (acc ++ jgetCards (T page)) (by omega) (by omega) (by omega)
      have hsub : page + 1 - 1 = page := by omega
      rw [hsub] at hrec
      rw [hrec, hcur, jgetCards_mkPage]
      have hn1 : n + 1 - page = (n + 1 - (page + 1)) + 1 := by omega
      rw [hn1, List.range'_succ, List.map_cons, List.flatten_cons, List.append_assoc]
    · have hstop : jtruthyO (jget (T (page - 1)) "hasMore") = false := by
        rw [hprev, jget_mkPage_hasMore]
        simp [jtruthyO, jtruthy, hlt]
      rw [fetch_pages_stop T fuel _ page acc hstop]
      have hz : n + 1 - page = 0 := by omega
      simp [hz]

/-- Claim C1: pagination completeness.  For a transport whose pages
1 … n carry record lists `rs 1 … rs n` with `hasMore` true exactly before
page n (and no error), `fetch_all_cards` returns precisely the
concatenation of pages 1 through n in page order — nothing dropped,
nothing duplicated. -/
theorem fetch_all_cards_pagination_complete (T : Nat → JVal) (rs : Nat → List JVal)
    (n fuel : Nat) (hn : 1 ≤ n)
    (HT : ∀ p, 1 ≤ p → p ≤ n → T p = mkPage (rs p) (decide (p < n)))
    (hfuel : n ≤ fuel) :
    (fetch_all_cards T fuel).1 = .ok (((List.range' 1 n).map rs).flatten) := by
  have h1 : T 1 = mkPage (rs 1) (decide (1 < n)) := HT 1 (by omega) hn
  have herr : jtruthyO (jget (T 1) "error") = false := by
    rw [h1, jget_mkPage_error]
    rfl
  unfold fetch_all_cards
  simp only [herr, Bool.false_eq_true, if_false]
  have hrec := fetch_pages_complete T rs n HT fuel 2 (jgetCards (T 1))
    (by omega) (by omega) (by omega)
  have hsub : (2 : Nat) - 1 = 1 := rfl
  rw [hsub] at hrec
  rw [hrec, h1, jgetCards_mkPage]
  have hn1 : n = (n - 1) + 1 := by omega
  rw [show n + 1 - 2 = n - 1 from by omega]
  conv_rhs => rw [hn1]
  rw [List.range'_succ, List.map_cons, List.flatten_cons]

set_option maxRecDepth 10000

/-- Page records for the C1 witness: sizes 100, 100, 37. -/
def c1PageRecords (p : Nat) : List JVal :=
  List.replicate (if p = 1 then 100 else if p = 2 then 100 else 37) (.num p)

/-- Transport for the C1 witness: 3 pages with `hasMore` true, true, false. -/
def c1Transport (p : Nat) : JVal := mkPage (c1PageRecords p) (decide (p < 3))

theorem fetch_all_cards_pagination_complete_witness :
    (fetch_all_cards c1Transport 3).1 = .ok (((List.range' 1 3).map c1PageRecords).flatten)
  ∧ (((List.range' 1 3).map c1PageRecords).flatten).length = 237 :=
  ⟨fetch_all_cards_pagination_complete c1Transport c1PageRecords 3 3 (by decide)
      (fun _ _ _ => rfl) (by decide),
   by decide⟩

theorem fetch_pages_until_fail (T : Nat → JVal) (rs : Nat → List JVal) (k : Nat)
    (HT : ∀ p, 1 ≤ p → p < k → T p = mkPage (rs p) true)
    (He : jtruthyO (jget (T k) "error") = true) :
    ∀ (fuel page : Nat) (acc : List JVal), 2 ≤ page → page ≤ k → k - page < fuel →
      (fetch_pages T fuel (T (page - 1)) page acc).1
        = acc ++ (((List.range' page (k - page)).map rs).flatten) := by
  intro fuel
  induction fuel with
  | zero =>
    intro page acc h2 hk hf
    exact absurd hf (by omega)
  | succ fuel ih =>
    intro page acc h2 hk hf
    have hprev : T (page - 1) = mkPage (rs (page - 1)) true := HT (page - 1) (by omega) (by omega)
    have hmore : jtruthyO (jget (T (page - 1)) "hasMore") = true := by
      rw [hprev, jget_mkPage_hasMore]
      rfl
    by_cases hpk : page = k
    · subst hpk
      rw [fetch_pages_fail T fuel _ page acc hmore He]
      simp
    · have hcur : T page = mkPage (rs page) true := HT page (by omega) (by omega)
      have herr : jtruthyO (jget (T page) "error") = false := by
        rw [hcur, jget_mkPage_error]
        rfl
      rw [fetch_pages_go T fuel _ page acc hmore herr]
      have hrec := ih (page + 1) (acc ++ jgetCards (T page)) (by omega) (by omega) (by omega)
      rw [show page + 1 - 1 = page from by omega] at hrec
      rw [hrec, hcur, jgetCards_mkPage]
      rw [show k - page = (k - (page + 1)) + 1 from by omega, List.range'_succ, List.map_cons,
        List.flatten_cons, List.append_assoc]

/-- Claim C2: pagination partial-failure policy.  If the first page
request returns an error, `fetch_all_cards` returns that error value
directly (nothing accumulated); if pages 1 … k-1 succeed with `hasMore`
true and page k (k ≥ 2) returns an error, it stops and returns exactly the
records accumulated from pages 1 … k-1 — a partial result, not an error
value. -/
theorem fetch_all_cards_partial_failure (T : Nat → JVal) (fuel : Nat) :
    (jtruthyO (jget (T 1) "error") = true →
      (fetch_all_cards T fuel).1 = .error (T 1))
  ∧ (∀ (rs : Nat → List JVal) (k : Nat), 2 ≤ k → k ≤ fuel →
      (∀ p, 1 ≤ p → p < k → T p = mkPage (rs p) true) →
      jtruthyO (jget (T k) "error") = true →
      (fetch_all_cards T fuel).1 = .ok (((List.range' 1 (k - 1)).map rs).flatten)) := by
  constructor
  · intro h
    unfold fetch_all_cards
    simp only [h, if_true]
  · intro rs k hk hfuel HT He
    have h1 : T 1 = mkPage (rs 1) true := HT 1 (by omega) (by omega)
    have herr : jtruthyO (jget (T 1) "error") = false := by
      rw [h1, jget_mkPage_error]
      rfl
    unfold fetch_all_cards
    simp only [herr, Bool.false_eq_true, if_false]
    have hrec := fetch_pages_until_fail T rs k HT He fuel 2 (jgetCards (T 1))
      (by omega) hk (by omega)
    rw [show (2 : Nat) - 1 = 1 from rfl] at hrec
    rw [hrec, h1, jgetCards_mkPage]
    rw [show k - 1 = (k - 2) + 1 from by omega, List.range'_succ, List.map_cons,
      List.flatten_cons]

/-- Transport for the C2 witness: page 1 succeeds with 100 records and
`hasMore` true, every later page errors. -/
def c2Transport (p : Nat) : JVal :=
  if p = 1 then mkPage (List.replicate 100 (.num 1)) true
  else .obj [("error", .bool true), ("message", .str "boom")]

theorem fetch_all_cards_partial_failure_witness :
    (fetch_all_cards c2Transport 2).1 = .ok (List.replicate 100 (.num 1)) := by
  have h := (fetch_all_cards_partial_failure c2Transport 2).2
    (fun _ => List.replicate 100 (.num 1)) 2 (by decide) (by decide)
    (fun p h1 h2 => by
      have hp : p = 1 := by omega
      subst hp
      rfl)
    (by decide)
  rw [h]
  rfl

theorem search_step_calls_le (a : SearchArgs) (T : Option JVal → Nat → JVal) (fuel : Nat)
    (acc : List JVal × Nat) (b : JVal) :
    acc.2 ≤ (search_board_step a T fuel acc b).2 := by
  simp only [search_board_step]
  split
  · exact Nat.le_refl _
  · split
    · exact Nat.le_add_right _ _
    · exact Nat.le_add_right _ _

theorem search_foldl_calls_le (a : SearchArgs) (T : Option JVal → Nat → JVal) (fuel : Nat) :
    ∀ (items : List JVal) (acc : List JVal × Nat),
      acc.2 ≤ (items.foldl (search_board_step a T fuel) acc).2 := by
  intro items
  induction items with
  | nil =>
    intro acc
    exact Nat.le_refl _
  | cons b rest ih =>
    intro acc
    rw [List.foldl_cons]
    exact Nat.le_trans (search_step_calls_le a T fuel acc b) (ih _)

/-- Claim C5: cross-board search fail-fast guard.  With no free-text
query and no label/owner/priority/blocked filter, `cmd_search_cards`
returns the usage-error document having issued zero network requests;
when at least one of these is supplied the guard does not fire and the
board-listing request is issued (at least one request). -/
theorem search_cards_guard (a : SearchArgs) (boardsResp : JVal)
    (T : Option JVal → Nat → JVal) (fuel : Nat) :
    (search_guard a = true →
      cmd_search_cards a boardsResp T fuel = (usage_error_doc, 0))
  ∧ (search_guard a = false →
      1 ≤ (cmd_search_cards a boardsResp T fuel).2) := by
  constructor
  · intro h
    unfold cmd_search_cards
    simp [h]
  · intro h
    unfold cmd_search_cards
    simp only [h, Bool.false_eq_true, if_false]
    by_cases he : jtruthyO (jget boardsResp "error") = true
    · simp [he]
    · have he2 : jtruthyO (jget boardsResp "error") = false := by
        revert he
        cases jtruthyO (jget boardsResp "error") <;> simp
      simp only [he2, Bool.false_eq_true, if_false]
      exact search_foldl_calls_le a T fuel (jgetBoards boardsResp) ([], 1)

theorem search_cards_guard_witness :
    cmd_search_cards ⟨none, none, none, none, false, false⟩ (.obj []) (fun _ _ => .obj []) 1
      = (usage_error_doc, 0)
  ∧ 1 ≤ (cmd_search_cards ⟨some "x", none, none, none, false, false⟩ (.obj [])
      (fun _ _ => .obj []) 1).2 :=
  ⟨(search_cards_guard ⟨none, none, none, none, false, false⟩ (.obj [])
      (fun _ _ => .obj []) 1).1 rfl,
   (search_cards_guard ⟨some "x", none, none, none, false, false⟩ (.obj [])
      (fun _ _ => .obj []) 1).2 rfl⟩
